import Mathlib

/-!
Verification of the crypto-bot decision/risk engine (run_bot.py and its
helpers in strategies/risk.py, utils/pnl.py, utils/storage.py).

Prices, quantities and PnL amounts are modelled as exact rationals (ℚ);
the Python source uses floats, but every claim under scrutiny is about
branch structure and exact bookkeeping identities, for which ℚ is the
faithful idealisation.  String formatting of numbers inside log/notify
messages and CSV rows is elided: reason strings and trade notes are kept
as fixed strings, since only their presence/emptiness and the TP/SL tag
are specified.
-/

/-- Trade side, as written into the trades CSV by `storage.append_trade`. -/
inductive Side where
  | BUY
  | SELL
  deriving Repr, DecidableEq

/-- One position dict, `state["positions"][sym]` in run_bot.py:
`{"qty","avg","sl","tp","trail_pct","opened_ts"}` (the flat template and
the default snapshot lack `opened_ts`, modelled as `none`). -/
structure Position where
  qty : ℚ
  avg : ℚ
  sl : ℚ
  tp : ℚ
  trail_pct : ℚ
  opened_ts : Option String := none
  deriving Repr, DecidableEq

/-- One row of the trades CSV (`storage.append_trade(ts, side, symbol, qty,
price, pnl_frac, pnl_usdt, note)`); exit reason travels in `note`.
`day` records the run day under which the row's PnL was booked (the run
computes `day = storage.day_key()` once at start). -/
structure TradeRecord where
  ts : String
  day : String
  side : Side
  symbol : String
  qty : ℚ
  price : ℚ
  pnl_frac : Option ℚ
  pnl_usdt : Option ℚ
  note : String
  deriving Repr, DecidableEq

/-- Association-list lookup with default, modelling Python `dict.get(k, d)`. -/
def getD {α : Type} (m : List (String × α)) (k : String) (d : α) : α :=
  match m.find? (fun p => p.1 == k) with
  | some p => p.2
  | none => d

/-- Association-list update, modelling Python `m[k] = v`. -/
def setKey {α : Type} (m : List (String × α)) (k : String) (v : α) : List (String × α) :=
  (k, v) :: m.filter (fun p => !(p.1 == k))

/-- `m[k] = m.get(k, 0.0) + x`, the per-day PnL accumulation idiom of run_bot. -/
def bump (m : List (String × ℚ)) (k : String) (x : ℚ) : List (String × ℚ) :=
  setKey m k (getD m k 0 + x)

/-- The persisted account state, `utils/storage.py` INITIAL_STATE shape.
Deposits/withdrawals are kept as amounts only (their ts/note fields play
no role in any claim). -/
structure AccountState where
  deposits : List ℚ
  withdrawals : List ℚ
  positions : List (String × Position)
  realized_pnl_frac : ℚ
  realized_pnl_usdt : ℚ
  day_pnl_frac : List (String × ℚ)
  day_pnl_usdt : List (String × ℚ)
  loss_streak : Int
  last_trade_day : Option String
  deriving Repr, DecidableEq

/-- `utils/storage.py` INITIAL_STATE. -/
def initialState : AccountState :=
  { deposits := []
    withdrawals := []
    positions := []
    realized_pnl_frac := 0
    realized_pnl_usdt := 0
    day_pnl_frac := []
    day_pnl_usdt := []
    loss_streak := 0
    last_trade_day := none }

/-- The default position snapshot / flat template of run_bot.py:
`{"qty": 0.0, "avg": 0.0, "sl": 0.0, "tp": 0.0, "trail_pct": 0.0}`. -/
def flatPos : Position :=
  { qty := 0, avg := 0, sl := 0, tp := 0, trail_pct := 0, opened_ts := none }

/-- `state["positions"].get(sym, {default snapshot})`. -/
def getPos (m : List (String × Position)) (k : String) : Position :=
  getD m k flatPos

/-- strategies/risk.py `position_size(equity_usdt, price, risk_pct, sl_price)`.
Python truthiness: `not price or price <= 0` collapses to `price ≤ 0` over ℚ,
and `not sl_price` is true exactly for `none` and `some 0`. -/
def position_size (equity_usdt price risk_pct : ℚ) (sl_price : Option ℚ) : ℚ :=
  if price ≤ 0 then 0
  else
    max ((equity_usdt * risk_pct) /
          max (match sl_price with
               | none => price * (1 / 100)
               | some s => if s = 0 ∨ s ≥ price then price * (1 / 100) else price - s)
              (1 / 100000000)) 0

/-- utils/pnl.py `next_trailing_sl(position, last_price)`:
`not trail or trail <= 0` collapses to `trail_pct ≤ 0` over ℚ. -/
def next_trailing_sl (position : Position) (last_price : ℚ) : ℚ :=
  if position.trail_pct ≤ 0 then position.sl
  else max (last_price * (1 - position.trail_pct)) position.sl

/-- The `risk:` section of the YAML config consumed by run_bot.py, after
the `float(cfg["risk"].get(key, 0) or 0.0)` coercions (absent/None → 0),
plus the `signals.require_bullish_pattern` toggle (default True). -/
structure RiskCfg where
  max_daily_loss_usdt : ℚ
  target_daily_profit_usdt : ℚ
  risk_pct : ℚ
  require_bullish_pattern : Bool
  deriving Repr, DecidableEq

/-- run_bot.py `daily_risk_gate(state, cfg, day)`.  Numeric interpolation in
the reason f-strings is elided; the reason text is otherwise as in source. -/
def daily_risk_gate (state : AccountState) (cfg : RiskCfg) (day : String) : Bool × String :=
  if 0 < cfg.max_daily_loss_usdt ∧
      getD state.day_pnl_usdt day 0 ≤ -|cfg.max_daily_loss_usdt| then
    (false, "Max daily loss hit")
  else if 0 < cfg.target_daily_profit_usdt ∧
      cfg.target_daily_profit_usdt ≤ getD state.day_pnl_usdt day 0 then
    (false, "Target daily profit hit")
  else
    (true, "")

/-- The TA signal dict produced by `strategies.momentum.signal(df, ...)`
as consumed by run_bot.py: `buy`, `sell`, `sl`, `tp`, `price`. -/
structure Signal where
  buy : Bool
  sell : Bool
  sl : ℚ
  tp : ℚ
  price : ℚ
  deriving Repr, DecidableEq

/-- The AI gate dict produced by `strategies.momentum_ai.ai_momentum_gate(df)`
as consumed by run_bot.py. -/
structure AIGate where
  ai_score : ℚ
  ai_conf : ℚ
  passed : Bool
  use_llm : Bool
  deriving Repr, DecidableEq

/-- Everything the per-symbol loop body of run_bot.main obtains from its
external collaborators for one symbol in one cycle: the symbol name, the
`now_iso()` timestamp, whether `load_ohlcv` returned a non-empty frame,
the TA signal, the AI gate verdict, and the candlestick pattern result. -/
structure CycleInput where
  sym : String
  ts : String
  bars_nonempty : Bool
  sig : Signal
  ai : AIGate
  ok_pat : Bool
  pattern_name : String
  deriving Repr, DecidableEq

/-- The run-level parameters of run_bot.main that the per-symbol decision
code reads: the daily gate result computed once at run start, the CLI
budget, `cfg["risk"]["risk_pct"]`, the `require_bullish_pattern` flag,
the ALLOW_AI_ONLY env toggle, `args.trail`, and the run day. -/
structure EngineCtx where
  allow_new_entries : Bool
  budget : ℚ
  risk_pct : ℚ
  require_pat : Bool
  allow_ai_only : Bool
  trail_arg : ℚ
  day : String
  deriving Repr, DecidableEq

/-- Mutable run accumulator: the account state, the trades CSV as a list of
rows (append-only), and the run's buy/sell counters. -/
structure RunAcc where
  state : AccountState
  trades : List TradeRecord
  buys : Nat
  sells : Nat
  deriving Repr, DecidableEq

/-- The trailing-stop ratchet step of run_bot.py (lines 197-200):
`new_sl = next_trailing_sl(pos, price); if new_sl > pos["sl"]: pos["sl"] = new_sl`. -/
def ratchet (pos : Position) (price : ℚ) : Position :=
  if pos.sl < next_trailing_sl pos price then { pos with sl := next_trailing_sl pos price }
  else pos

/-- The shared exit bookkeeping of run_bot.py executed inside both the TP and
SL branches when `qty > 0`: book fractional and absolute PnL into the
lifetime and per-day ledgers, append a SELL row whose note carries the exit
reason, and count the sell.  (`broker.market_sell` and `notify` are external
effects with no ledger footprint.) -/
def bookExit (reason : String) (day ts sym : String) (qty price avg : ℚ) (acc : RunAcc) : RunAcc :=
  { acc with
    state := { acc.state with
      realized_pnl_frac := acc.state.realized_pnl_frac + (price - avg) / avg
      day_pnl_frac := bump acc.state.day_pnl_frac day ((price - avg) / avg)
      realized_pnl_usdt := acc.state.realized_pnl_usdt + qty * (price - avg)
      day_pnl_usdt := bump acc.state.day_pnl_usdt day (qty * (price - avg)) }
    trades := acc.trades ++
      [{ ts := ts, day := day, side := Side.SELL, symbol := sym, qty := qty,
         price := price, pnl_frac := some ((price - avg) / avg),
         pnl_usdt := some (qty * (price - avg)), note := reason }]
    sells := acc.sells + 1 }

/-- Exit management, run_bot.py lines 195-243 (the body guarded by
`if pos["qty"] > 0`).  `pos` is the local snapshot; in Python it aliases
`state["positions"][sym]`, so on the hold path the ratcheted stop persists
in the state, while both exit branches replace the stored position with the
flat template.  The SL branch reads the pre-update `loss_streak`
(`state.get("loss_streak", 0)`). -/
def exitPhase (ctx : EngineCtx) (inp : CycleInput) (pos : Position) (acc : RunAcc) : RunAcc :=
  if (ratchet pos inp.sig.price).tp ≤ inp.sig.price then
    -- Take Profit (checked first)
    (fun acc1 =>
      { acc1 with state := { acc1.state with
          positions := setKey acc1.state.positions inp.sym flatPos
          loss_streak := 0 } })
    (if 0 < max 0 (ratchet pos inp.sig.price).qty then
       bookExit ("TP") ctx.day inp.ts inp.sym (max 0 (ratchet pos inp.sig.price).qty)
         inp.sig.price (ratchet pos inp.sig.price).avg acc
     else acc)
  else if inp.sig.price ≤ (ratchet pos inp.sig.price).sl then
    -- Stop Loss
    (fun acc1 =>
      { acc1 with state := { acc1.state with
          positions := setKey acc1.state.positions inp.sym flatPos } })
    (if 0 < max 0 (ratchet pos inp.sig.price).qty then
       (fun b =>
         { b with state := { b.state with
             loss_streak :=
               if max 0 (ratchet pos inp.sig.price).qty *
                   (inp.sig.price - (ratchet pos inp.sig.price).avg) < 0 then
                 acc.state.loss_streak + 1
               else 0 } })
       (bookExit ("SL") ctx.day inp.ts inp.sym (max 0 (ratchet pos inp.sig.price).qty)
         inp.sig.price (ratchet pos inp.sig.price).avg acc)
     else acc)
  else
    -- HOLD: only the (possibly) ratcheted stop is written through
    { acc with state := { acc.state with
        positions := setKey acc.state.positions inp.sym (ratchet pos inp.sig.price) } }

/-- Entry evaluation, run_bot.py lines 246-259.  `posQty` is the qty of the
position snapshot taken BEFORE exit management (the Python `pos` variable is
never rebound, and the exit branches replace the dict stored in the state,
not the snapshot), so an exit in the same cycle does not enable re-entry. -/
def entryPhase (ctx : EngineCtx) (inp : CycleInput) (posQty : ℚ) (acc : RunAcc) : RunAcc :=
  if ctx.allow_new_entries = true ∧ posQty ≤ 0 ∧
      (inp.sig.buy || ctx.allow_ai_only) = true ∧ inp.ai.passed = true then
    if ctx.require_pat = true ∧ inp.ok_pat = false then
      acc  -- "skipped — no bullish candlestick": continue to next symbol
    else
      if 0 < position_size ctx.budget inp.sig.price ctx.risk_pct (some inp.sig.sl) then
        { acc with
          state := { acc.state with
            positions := setKey acc.state.positions inp.sym
              { qty := position_size ctx.budget inp.sig.price ctx.risk_pct (some inp.sig.sl)
                avg := inp.sig.price
                sl := inp.sig.sl
                tp := inp.sig.tp
                trail_pct := if 0 < ctx.trail_arg then ctx.trail_arg else 0
                opened_ts := some inp.ts } }
          trades := acc.trades ++
            [{ ts := inp.ts, day := ctx.day, side := Side.BUY, symbol := inp.sym,
               qty := position_size ctx.budget inp.sig.price ctx.risk_pct (some inp.sig.sl),
               price := inp.sig.price, pnl_frac := none, pnl_usdt := none, note := "AI" }]
          buys := acc.buys + 1 }
      else acc
  else acc

/-- run_bot.py lines 188-259: the exit/entry decision engine for one symbol
in one cycle — exit management whenever the stored position has qty > 0,
then the gated entry evaluation against the pre-exit position snapshot. -/
def decisionPhase (ctx : EngineCtx) (inp : CycleInput) (acc : RunAcc) : RunAcc :=
  entryPhase ctx inp (getPos acc.state.positions inp.sym).qty
    (if 0 < (getPos acc.state.positions inp.sym).qty
     then exitPhase ctx inp (getPos acc.state.positions inp.sym) acc
     else acc)

/-- The failure class raised by attribute lookup on a module object. -/
inductive RunError where
  | attributeError (msg : String)
  deriving Repr, DecidableEq

/-- The full per-symbol loop body of run_bot.main (lines 150-259).  With an
empty/absent frame the loop logs "no data" and continues; otherwise, after
computing signals and logging, line 178 calls `storage.append_ai_decision`,
but utils/storage.py defines no such function (its module-level defs are
now_iso, day_key, read_state, write_state, append_trade, append_equity,
total_deposits, record_deposit, record_withdraw, unrealized_pnl_frac,
next_trailing_sl is in utils/pnl.py), so Python raises AttributeError there
— before the exit-management and entry blocks (`decisionPhase`) are
reached. -/
def processSymbol (ctx : EngineCtx) (inp : CycleInput) (acc : RunAcc) : Except RunError RunAcc :=
  if inp.bars_nonempty = false then Except.ok acc
  else Except.error
    (RunError.attributeError ("module utils.storage has no attribute append_ai_decision"))

/-- Day-rollover reset at the start of run_bot.main (lines 98-102), executed
once per run, before any symbol: on a new calendar day, zero `loss_streak`
and stamp `last_trade_day`. -/
def runStart (state : AccountState) (day : String) : AccountState :=
  if state.last_trade_day ≠ some day then
    { state with loss_streak := 0, last_trade_day := some day }
  else state

/-- One invocation of the orchestrator, restricted to the decision engine's
ledger effects (run_bot.main): day-rollover reset, the daily gate computed
once, then the per-symbol decision code folded over the symbols that
returned data.  (The bookkeeping modelled here is the code downstream of
the faulting `append_ai_decision` call — see `processSymbol`.) -/
structure RunSpec where
  day : String
  budget : ℚ
  trail : ℚ
  cfg : RiskCfg
  allow_ai_only : Bool
  cycles : List CycleInput
  deriving Repr, DecidableEq

def execRun (r : RunSpec) (acc : RunAcc) : RunAcc :=
  (fun st =>
    r.cycles.foldl
      (fun a c =>
        if c.bars_nonempty = true then
          decisionPhase
            { allow_new_entries := (daily_risk_gate st r.cfg r.day).1
              budget := r.budget
              risk_pct := r.cfg.risk_pct
              require_pat := r.cfg.require_bullish_pattern
              allow_ai_only := r.allow_ai_only
              trail_arg := r.trail
              day := r.day } c a
        else a)
      { acc with state := st, buys := 0, sells := 0 })
  (runStart acc.state r.day)

/-- The run accumulator of a fresh deployment: INITIAL_STATE and empty CSVs. -/
def initialAcc : RunAcc :=
  { state := initialState, trades := [], buys := 0, sells := 0 }

/-! ### Helper lemmas about the association-list map operations -/

lemma find?_filter_ne {α : Type} (m : List (String × α)) (k q : String) (hne : q ≠ k) :
    (m.filter (fun p => !(p.1 == k))).find? (fun p => p.1 == q) =
      m.find? (fun p => p.1 == q) := by
  induction m with
  | nil => rfl
  | cons a t ih =>
    by_cases hak : a.1 = k
    · have h1 : (a.1 == k) = true := by simp [hak]
      have h2 : (a.1 == q) = false := by
        rw [hak]; exact beq_eq_false_iff_ne.mpr (Ne.symm hne)
      simp [List.filter_cons, h1, List.find?_cons, h2, ih]
    · have h1 : (a.1 == k) = false := by simp [hak]
      by_cases haq : a.1 = q
      · have h2 : (a.1 == q) = true := by simp [haq]
        simp [List.filter_cons, h1, List.find?_cons, h2]
      · have h2 : (a.1 == q) = false := by simp [haq]
        simp [List.filter_cons, h1, List.find?_cons, h2, ih]

lemma getD_setKey {α : Type} (m : List (String × α)) (k q : String) (v d : α) :
    getD (setKey m k v) q d = if q = k then v else getD m q d := by
  by_cases h : q = k
  · subst h
    simp [getD, setKey, List.find?_cons]
  · have hbd : (k == q) = false := beq_eq_false_iff_ne.mpr (Ne.symm h)
    simp [getD, setKey, List.find?_cons, hbd, find?_filter_ne m k q h, h]

lemma getD_bump (m : List (String × ℚ)) (k q : String) (x : ℚ) :
    getD (bump m k x) q 0 = getD m q 0 + if q = k then x else 0 := by
  unfold bump
  rw [getD_setKey]
  by_cases h : q = k
  · subst h; simp
  · simp [h]

/-! ### Helper lemmas about the trailing-stop ratchet -/

lemma sl_le_next_trailing_sl (pos : Position) (lp : ℚ) :
    pos.sl ≤ next_trailing_sl pos lp := by
  unfold next_trailing_sl
  split
  · exact le_refl _
  · exact le_max_right _ _

lemma ratchet_qty (pos : Position) (p : ℚ) : (ratchet pos p).qty = pos.qty := by
  unfold ratchet; split <;> rfl

lemma ratchet_avg (pos : Position) (p : ℚ) : (ratchet pos p).avg = pos.avg := by
  unfold ratchet; split <;> rfl

lemma ratchet_tp (pos : Position) (p : ℚ) : (ratchet pos p).tp = pos.tp := by
  unfold ratchet; split <;> rfl

lemma ratchet_sl (pos : Position) (p : ℚ) :
    (ratchet pos p).sl = next_trailing_sl pos p := by
  unfold ratchet
  split
  · rfl
  · next h => exact le_antisymm (sl_le_next_trailing_sl pos p) (not_lt.mp h)

/-! ### Concrete scenario: gate-blocked day with an open position (used by
several witnesses/counterexamples below).  max_daily_loss=50, today's PnL
-55, an open BTC/USDT long qty=1 avg=100 sl=90 tp=110, bar price 120. -/

def cfg0 : RiskCfg :=
  { max_daily_loss_usdt := 50, target_daily_profit_usdt := 0
    risk_pct := 1 / 200, require_bullish_pattern := true }

def day0 : String := "2024-01-02"

def pos0 : Position :=
  { qty := 1, avg := 100, sl := 90, tp := 110, trail_pct := 0, opened_ts := none }

def st0 : AccountState :=
  { initialState with
    day_pnl_usdt := [(day0, -55)]
    positions := [("BTC/USDT", pos0)]
    last_trade_day := some day0 }

def sig0 : Signal := { buy := false, sell := false, sl := 95, tp := 115, price := 120 }

def ai0 : AIGate := { ai_score := 50, ai_conf := 50, passed := false, use_llm := false }

def inp0 : CycleInput :=
  { sym := "BTC/USDT", ts := "2024-01-02T10:00:00Z", bars_nonempty := true
    sig := sig0, ai := ai0, ok_pat := false, pattern_name := "none" }

def ctx0 : EngineCtx :=
  { allow_new_entries := (daily_risk_gate st0 cfg0 day0).1
    budget := 1000, risk_pct := cfg0.risk_pct, require_pat := true
    allow_ai_only := false, trail_arg := 0, day := day0 }

def acc0 : RunAcc := { state := st0, trades := [], buys := 0, sells := 0 }

/-! ## C5 — Risk Sizer contract -/

/-- The Risk Sizer contract exactly as the claim words it, for comparison
with `position_size`: per-unit risk is `price - stop_loss_price` whenever a
stop is provided and below price (with no nonzero proviso), and the
returned quantity is the raw quotient (no flooring at 0). -/
def position_size_claimed (budget price risk_fraction : ℚ) (sl_price : Option ℚ) : ℚ :=
  if price ≤ 0 then 0
  else
    (budget * risk_fraction) /
      max (match sl_price with
           | some s => if s < price then price - s else price * (1 / 100)
           | none => price * (1 / 100))
          (1 / 100000000)

/-- The claim, amended minimally: the fallback per-unit risk is also used
when the provided stop is zero (Python truthiness treats `0.0` as missing),
and the quotient is floored at 0. -/
def position_size_amendedSpec (budget price risk_fraction : ℚ) (sl_price : Option ℚ) : ℚ :=
  if price ≤ 0 then 0
  else
    max ((budget * risk_fraction) /
          max (match sl_price with
               | some s => if s ≠ 0 ∧ s < price then price - s else price * (1 / 100)
               | none => price * (1 / 100))
              (1 / 100000000)) 0

/-- C5 (counterexample): the code disagrees with the claimed formula at a
provided zero stop (code falls back to the 1% proxy: 5 vs the claimed 1/20)
and at a negative budget (code floors at 0: 0 vs the claimed -5/2). -/
theorem position_size_claim_counterexample :
    position_size 1000 100 (1 / 200) (some 0) = 5 ∧
    position_size_claimed 1000 100 (1 / 200) (some 0) = 1 / 20 ∧
    (5 : ℚ) ≠ 1 / 20 ∧
    position_size (-1000) 100 (1 / 200) (some 98) = 0 ∧
    position_size_claimed (-1000) 100 (1 / 200) (some 98) = -(5 / 2) ∧
    (0 : ℚ) ≠ -(5 / 2) := by
  refine ⟨?_, ?_, by norm_num, ?_, ?_, by norm_num⟩ <;>
    norm_num [position_size, position_size_claimed]

/-- C5 (amended): `position_size` returns 0 for `price ≤ 0` and otherwise
`max 0` of `(budget * risk_fraction) / max(per_unit_risk, 1e-8)`, where
per-unit risk is `price - stop_loss_price` when the stop is provided,
nonzero, and below price, and the 1% proxy `price * 0.01` otherwise; in
particular the fallback case (1000, 100, 0.005, none) yields exactly 5. -/
theorem position_size_contract :
    (∀ (budget price risk_fraction : ℚ) (sl_price : Option ℚ),
      position_size budget price risk_fraction sl_price =
        position_size_amendedSpec budget price risk_fraction sl_price) ∧
    position_size 1000 100 (1 / 200) none = 5 := by
  constructor
  · intro budget price risk_fraction sl_price
    unfold position_size position_size_amendedSpec
    by_cases hp : price ≤ 0
    · simp [hp]
    · simp only [if_neg hp]
      cases sl_price with
      | none => rfl
      | some s =>
        by_cases hs : s = 0 ∨ s ≥ price
        · have hn : ¬(s ≠ 0 ∧ s < price) := by
            rintro ⟨h1, h2⟩
            rcases hs with h | h
            · exact h1 h
            · exact absurd h2 (not_lt.mpr h)
          simp [hs, hn]
        · have hyes : s ≠ 0 ∧ s < price := by push_neg at hs; exact hs
          simp [hs, hyes, not_le.mpr hyes.2]
  · norm_num [position_size]

/-! ## C6 — Trailing-stop calculator -/

/-- C6: `next_trailing_sl` returns the current stop unchanged when
`trail_pct ≤ 0`, otherwise `max (last_price * (1 - trail_pct)) sl`; in all
cases the result is at least the position's current stop, so the suggested
stop never moves down across any sequence of calls. -/
theorem next_trailing_sl_contract (pos : Position) (lp : ℚ) :
    (pos.trail_pct ≤ 0 → next_trailing_sl pos lp = pos.sl) ∧
    (0 < pos.trail_pct →
      next_trailing_sl pos lp = max (lp * (1 - pos.trail_pct)) pos.sl) ∧
    pos.sl ≤ next_trailing_sl pos lp := by
  refine ⟨fun h => ?_, fun h => ?_, sl_le_next_trailing_sl pos lp⟩
  · simp [next_trailing_sl, h]
  · simp [next_trailing_sl, not_le.mpr h]

theorem next_trailing_sl_contract_witness :
    next_trailing_sl
        { qty := 1, avg := 100, sl := 95, tp := 110, trail_pct := 1 / 100, opened_ts := none }
        100 = max ((100 : ℚ) * (1 - 1 / 100)) 95 ∧
    (95 : ℚ) ≤ next_trailing_sl
        { qty := 1, avg := 100, sl := 95, tp := 110, trail_pct := 1 / 100, opened_ts := none }
        100 :=
  ⟨(next_trailing_sl_contract _ _).2.1 (by norm_num),
   (next_trailing_sl_contract _ _).2.2⟩

/-! ## C7 — Daily risk gate decision -/

/-- C7: `daily_risk_gate` returns `false` with a non-empty reason exactly
when a configured positive max daily loss has been reached by today's PnL
(0 when the day is absent) or a configured positive daily profit target has
been reached; in every other case it returns `(true, "")`. -/
theorem daily_risk_gate_characterization (state : AccountState) (cfg : RiskCfg) (day : String) :
    (((daily_risk_gate state cfg day).1 = false ∧ (daily_risk_gate state cfg day).2 ≠ "") ↔
      ((0 < cfg.max_daily_loss_usdt ∧
          getD state.day_pnl_usdt day 0 ≤ -cfg.max_daily_loss_usdt) ∨
       (0 < cfg.target_daily_profit_usdt ∧
          cfg.target_daily_profit_usdt ≤ getD state.day_pnl_usdt day 0))) ∧
    (¬ ((0 < cfg.max_daily_loss_usdt ∧
          getD state.day_pnl_usdt day 0 ≤ -cfg.max_daily_loss_usdt) ∨
        (0 < cfg.target_daily_profit_usdt ∧
          cfg.target_daily_profit_usdt ≤ getD state.day_pnl_usdt day 0)) →
      daily_risk_gate state cfg day = (true, "")) := by
  unfold daily_risk_gate
  split
  · next h1 =>
    have habs : -|cfg.max_daily_loss_usdt| = -cfg.max_daily_loss_usdt := by
      rw [abs_of_pos h1.1]
    rw [habs] at h1
    refine ⟨⟨fun _ => Or.inl h1, fun _ => ⟨rfl, by decide⟩⟩, fun hn => absurd (Or.inl h1) hn⟩
  · split
    · next h1 h2 =>
      refine ⟨⟨fun _ => Or.inr h2, fun _ => ⟨rfl, by decide⟩⟩, fun hn => absurd (Or.inr h2) hn⟩
    · next h1 h2 =>
      have hnb : ¬ ((0 < cfg.max_daily_loss_usdt ∧
            getD state.day_pnl_usdt day 0 ≤ -cfg.max_daily_loss_usdt) ∨
          (0 < cfg.target_daily_profit_usdt ∧
            cfg.target_daily_profit_usdt ≤ getD state.day_pnl_usdt day 0)) := by
        rintro (⟨hm, hp⟩ | hb)
        · exact h1 ⟨hm, by rwa [abs_of_pos hm]⟩
        · exact h2 hb
      exact ⟨⟨fun hf => absurd hf.1 (by decide), fun hb => absurd hb hnb⟩, fun _ => rfl⟩

theorem daily_risk_gate_characterization_witness :
    (daily_risk_gate st0 cfg0 day0).1 = false ∧
    daily_risk_gate initialState cfg0 day0 = (true, "") := by
  refine ⟨((daily_risk_gate_characterization st0 cfg0 day0).1.mpr ?_).1,
          (daily_risk_gate_characterization initialState cfg0 day0).2 ?_⟩
  · left
    constructor
    · norm_num [cfg0]
    · norm_num [st0, day0, getD, cfg0, initialState]
  · rintro (⟨_, hp⟩ | ⟨ht, _⟩)
    · revert hp
      norm_num [initialState, getD, cfg0]
    · revert ht
      norm_num [cfg0]

/-! ## C8 — the daily gate does not latch -/

/-- C8 (counterexample): with max_daily_loss=50 and today's PnL at -55 the
gate blocks; but after one subsequent TP exit booked into the same day
(+20 from the open qty=1 avg=100 position closed at 120, raising the day's
PnL to -35), `allow_new_entries` returns `true` again on the same calendar
day — the gate is a pure function of the day's current PnL and does not
latch. -/
theorem daily_gate_no_latch_counterexample :
    (daily_risk_gate st0 cfg0 day0).1 = false ∧
    getD (decisionPhase ctx0 inp0 acc0).state.day_pnl_usdt day0 0 = -35 ∧
    (decisionPhase ctx0 inp0 acc0).state.last_trade_day = some day0 ∧
    (daily_risk_gate (decisionPhase ctx0 inp0 acc0).state cfg0 day0).1 = true := by
  refine ⟨?_, ?_, ?_, ?_⟩ <;>
    norm_num [decisionPhase, entryPhase, exitPhase, bookExit, ratchet, next_trailing_sl,
      getPos, getD, setKey, bump, daily_risk_gate, ctx0, inp0, acc0, st0, cfg0, day0,
      pos0, sig0, ai0, initialState, flatPos, position_size]

/-- C8 (amended): while today's realized PnL remains at or below
`-max_daily_loss` (with a positive configured max loss), every evaluation of
`allow_new_entries` returns `false`; the blocking holds for as long as the
day's PnL stays across the threshold, but is not latched: it is a pure
function of the day's current PnL. -/
theorem daily_gate_blocks_while_crossed (state : AccountState) (cfg : RiskCfg) (day : String)
    (hm : 0 < cfg.max_daily_loss_usdt)
    (hp : getD state.day_pnl_usdt day 0 ≤ -cfg.max_daily_loss_usdt) :
    (daily_risk_gate state cfg day).1 = false := by
  unfold daily_risk_gate
  rw [if_pos ⟨hm, by rwa [abs_of_pos hm]⟩]

theorem daily_gate_blocks_while_crossed_witness :
    (daily_risk_gate st0 cfg0 day0).1 = false :=
  daily_gate_blocks_while_crossed st0 cfg0 day0 (by norm_num [cfg0])
    (by norm_num [st0, day0, getD, cfg0, initialState])

/-! ### Engine branch lemmas -/

lemma entryPhase_skip (ctx : EngineCtx) (inp : CycleInput) (posQty : ℚ) (acc : RunAcc)
    (h : ¬ posQty ≤ 0) : entryPhase ctx inp posQty acc = acc := by
  unfold entryPhase
  rw [if_neg]
  rintro ⟨-, h2, -, -⟩
  exact h h2

/-! ## C3 — Exit tie-break: TP before SL -/

/-- C3: whenever the stored position is open and the bar price satisfies
both the take-profit and the stop-loss condition simultaneously, the engine
closes the full position and records the exit with reason TP, not SL. -/
theorem exit_tiebreak_tp_wins (ctx : EngineCtx) (inp : CycleInput) (acc : RunAcc)
    (hq : 0 < (getPos acc.state.positions inp.sym).qty)
    (htp : (getPos acc.state.positions inp.sym).tp ≤ inp.sig.price)
    (hsl : inp.sig.price ≤ (getPos acc.state.positions inp.sym).sl) :
    getPos (decisionPhase ctx inp acc).state.positions inp.sym = flatPos ∧
    (decisionPhase ctx inp acc).trades = acc.trades ++
      [{ ts := inp.ts, day := ctx.day, side := Side.SELL, symbol := inp.sym,
         qty := (getPos acc.state.positions inp.sym).qty, price := inp.sig.price,
         pnl_frac := some ((inp.sig.price - (getPos acc.state.positions inp.sym).avg) /
           (getPos acc.state.positions inp.sym).avg),
         pnl_usdt := some ((getPos acc.state.positions inp.sym).qty *
           (inp.sig.price - (getPos acc.state.positions inp.sym).avg)),
         note := "TP" }] := by
  unfold decisionPhase
  rw [if_pos hq, entryPhase_skip ctx inp _ _ (not_le.mpr hq)]
  unfold exitPhase
  rw [if_pos (show (ratchet (getPos acc.state.positions inp.sym) inp.sig.price).tp ≤
        inp.sig.price by rwa [ratchet_tp])]
  simp only [ratchet_qty, ratchet_avg]
  rw [max_eq_right hq.le, if_pos hq]
  constructor
  · unfold getPos
    rw [getD_setKey]
    simp
  · rfl

/-- A degenerate/gapped-bar scenario: open position whose TP and SL levels
coincide with the bar price (both exit conditions hold at once). -/
def pos1 : Position :=
  { qty := 1, avg := 100, sl := 100, tp := 100, trail_pct := 0, opened_ts := none }

def st1 : AccountState :=
  { initialState with positions := [("ETH/USDT", pos1)], last_trade_day := some day0 }

def sig1 : Signal := { buy := false, sell := false, sl := 95, tp := 105, price := 100 }

def inp1 : CycleInput :=
  { sym := "ETH/USDT", ts := "2024-01-02T11:00:00Z", bars_nonempty := true
    sig := sig1, ai := ai0, ok_pat := false, pattern_name := "none" }

def ctx1 : EngineCtx :=
  { allow_new_entries := true, budget := 1000, risk_pct := 1 / 200, require_pat := true
    allow_ai_only := false, trail_arg := 0, day := day0 }

def acc1 : RunAcc := { state := st1, trades := [], buys := 0, sells := 0 }

theorem exit_tiebreak_tp_wins_witness :
    getPos (decisionPhase ctx1 inp1 acc1).state.positions inp1.sym = flatPos ∧
    (decisionPhase ctx1 inp1 acc1).trades = acc1.trades ++
      [{ ts := inp1.ts, day := ctx1.day, side := Side.SELL, symbol := inp1.sym,
         qty := (getPos acc1.state.positions inp1.sym).qty, price := inp1.sig.price,
         pnl_frac := some ((inp1.sig.price - (getPos acc1.state.positions inp1.sym).avg) /
           (getPos acc1.state.positions inp1.sym).avg),
         pnl_usdt := some ((getPos acc1.state.positions inp1.sym).qty *
           (inp1.sig.price - (getPos acc1.state.positions inp1.sym).avg)),
         note := "TP" }] :=
  exit_tiebreak_tp_wins ctx1 inp1 acc1
    (by norm_num [acc1, st1, inp1, sig1, pos1, getPos, getD, initialState])
    (by norm_num [acc1, st1, inp1, sig1, pos1, getPos, getD, initialState])
    (by norm_num [acc1, st1, inp1, sig1, pos1, getPos, getD, initialState])

lemma exitPhase_gate_irrelevant (ctx : EngineCtx) (a b : Bool) (inp : CycleInput)
    (pos : Position) (acc : RunAcc) :
    exitPhase { ctx with allow_new_entries := a } inp pos acc =
      exitPhase { ctx with allow_new_entries := b } inp pos acc := rfl

/-! ## C4 — the daily gate governs new entries only -/

/-- C4: for a symbol whose stored position is open (qty > 0), the per-symbol
decision code is entirely independent of the daily gate's verdict — the
trailing ratchet and the TP/SL exit checks run and can close the position
even when `allow_new_entries` is `false` (shown here for the TP exit); the
gate's result is consulted only by the entry path, which an open position
already disables. -/
theorem gate_governs_entries_only (ctx : EngineCtx) (inp : CycleInput) (acc : RunAcc)
    (hq : 0 < (getPos acc.state.positions inp.sym).qty) :
    (∀ a b : Bool,
      decisionPhase { ctx with allow_new_entries := a } inp acc =
        decisionPhase { ctx with allow_new_entries := b } inp acc) ∧
    ((getPos acc.state.positions inp.sym).tp ≤ inp.sig.price →
      getPos (decisionPhase { ctx with allow_new_entries := false } inp acc).state.positions
          inp.sym = flatPos ∧
      (decisionPhase { ctx with allow_new_entries := false } inp acc).sells = acc.sells + 1) := by
  constructor
  · intro a b
    unfold decisionPhase
    rw [if_pos hq,
      entryPhase_skip { ctx with allow_new_entries := a } inp _ _ (not_le.mpr hq),
      if_pos hq,
      entryPhase_skip { ctx with allow_new_entries := b } inp _ _ (not_le.mpr hq)]
    exact exitPhase_gate_irrelevant ctx a b inp _ acc
  · intro htp
    unfold decisionPhase
    rw [if_pos hq, entryPhase_skip { ctx with allow_new_entries := false } inp _ _ (not_le.mpr hq)]
    unfold exitPhase
    rw [if_pos (show (ratchet (getPos acc.state.positions inp.sym) inp.sig.price).tp ≤
          inp.sig.price by rwa [ratchet_tp])]
    rw [ratchet_qty, max_eq_right hq.le, if_pos hq]
    constructor
    · unfold getPos
      rw [getD_setKey]
      simp
    · rfl

theorem gate_governs_entries_only_witness :
    decisionPhase { ctx0 with allow_new_entries := false } inp0 acc0 =
      decisionPhase { ctx0 with allow_new_entries := true } inp0 acc0 ∧
    getPos (decisionPhase { ctx0 with allow_new_entries := false } inp0 acc0).state.positions
        inp0.sym = flatPos ∧
    (decisionPhase { ctx0 with allow_new_entries := false } inp0 acc0).sells = acc0.sells + 1 := by
  have h := gate_governs_entries_only ctx0 inp0 acc0
    (by norm_num [acc0, st0, inp0, pos0, getPos, getD, initialState])
  have h2 := h.2 (by norm_num [acc0, st0, inp0, pos0, sig0, getPos, getD, initialState])
  exact ⟨h.1 false true, h2.1, h2.2⟩

/-! ## C10 — loss_streak bookkeeping -/

/-- C10: a TP exit resets `loss_streak` to 0 unconditionally; an SL exit
increments it by 1 when the exit PnL is negative and resets it to 0
otherwise; and the run prologue resets it to 0 whenever the calendar day
differs from the stored `last_trade_day` (once, before any symbol — the
orchestrator applies `runStart` to the state before folding the symbols). -/
theorem loss_streak_contract (ctx : EngineCtx) (inp : CycleInput) (acc : RunAcc) :
    (0 < (getPos acc.state.positions inp.sym).qty →
      ((getPos acc.state.positions inp.sym).tp ≤ inp.sig.price →
        (decisionPhase ctx inp acc).state.loss_streak = 0) ∧
      (inp.sig.price < (getPos acc.state.positions inp.sym).tp →
        inp.sig.price ≤ next_trailing_sl (getPos acc.state.positions inp.sym) inp.sig.price →
        (decisionPhase ctx inp acc).state.loss_streak =
          (if (getPos acc.state.positions inp.sym).qty *
              (inp.sig.price - (getPos acc.state.positions inp.sym).avg) < 0
           then acc.state.loss_streak + 1 else 0))) ∧
    (∀ (s : AccountState) (d : String), s.last_trade_day ≠ some d →
      (runStart s d).loss_streak = 0) := by
  constructor
  · intro hq
    constructor
    · intro htp
      unfold decisionPhase
      rw [if_pos hq, entryPhase_skip ctx inp _ _ (not_le.mpr hq)]
      unfold exitPhase
      rw [if_pos (show (ratchet (getPos acc.state.positions inp.sym) inp.sig.price).tp ≤
            inp.sig.price by rwa [ratchet_tp])]
    · intro htp hsl
      unfold decisionPhase
      rw [if_pos hq, entryPhase_skip ctx inp _ _ (not_le.mpr hq)]
      unfold exitPhase
      rw [if_neg (show ¬ (ratchet (getPos acc.state.positions inp.sym) inp.sig.price).tp ≤
            inp.sig.price by rw [ratchet_tp]; exact not_le.mpr htp)]
      rw [if_pos (show inp.sig.price ≤
            (ratchet (getPos acc.state.positions inp.sym) inp.sig.price).sl by
              rw [ratchet_sl]; exact hsl)]
      rw [ratchet_qty, ratchet_avg, max_eq_right hq.le, if_pos hq]
  · intro s d h
    unfold runStart
    rw [if_pos h]

theorem loss_streak_contract_witness :
    (decisionPhase ctx1 inp1 acc1).state.loss_streak = 0 ∧
    (runStart initialState day0).loss_streak = 0 :=
  ⟨((loss_streak_contract ctx1 inp1 acc1).1
      (by norm_num [acc1, st1, inp1, pos1, getPos, getD, initialState])).1
      (by norm_num [acc1, st1, inp1, pos1, sig1, getPos, getD, initialState]),
   (loss_streak_contract ctx1 inp1 acc1).2 initialState day0 (by simp [initialState])⟩

/-! ## C2 — storage.append_ai_decision does not exist -/

/-- C2: for every run context and accumulator, any symbol whose data fetch
returned a non-empty bar sequence makes the per-symbol loop body abort with
an AttributeError at the `storage.append_ai_decision` call — before the
exit/entry decision code runs — so no trade record or ledger mutation from
the decision engine is ever produced. -/
theorem append_ai_decision_missing_aborts (ctx : EngineCtx) (inp : CycleInput) (acc : RunAcc)
    (h : inp.bars_nonempty = true) :
    processSymbol ctx inp acc = Except.error
      (RunError.attributeError ("module utils.storage has no attribute append_ai_decision")) ∧
    ∀ acc' : RunAcc, processSymbol ctx inp acc ≠ Except.ok acc' := by
  have hmain : processSymbol ctx inp acc = Except.error
      (RunError.attributeError ("module utils.storage has no attribute append_ai_decision")) := by
    unfold processSymbol
    rw [if_neg]
    rw [h]
    exact fun hc => absurd hc (by simp)
  exact ⟨hmain, fun acc' hok => by rw [hmain] at hok; exact Except.noConfusion hok⟩

theorem append_ai_decision_missing_aborts_witness :
    processSymbol ctx1 inp1 acc1 = Except.error
      (RunError.attributeError ("module utils.storage has no attribute append_ai_decision")) ∧
    ∀ acc' : RunAcc, processSymbol ctx1 inp1 acc1 ≠ Except.ok acc' :=
  append_ai_decision_missing_aborts ctx1 inp1 acc1 (by norm_num [inp1])

/-! ## C1 — the engine raises even on expected business conditions -/

/-- C1 (code bug, exhibited): a cycle in which the daily gate blocks entry
(max_daily_loss=50, today's PnL -55) and nothing else is wrong still ends in
a raised AttributeError for the symbol — not in an explicit skip/hold
decision — because of the missing `storage.append_ai_decision` (see C2):
the claimed "never an exception on expected business conditions" behavior is
the documented intent (run_bot.py's own docstring advertises the
ai_decisions CSV ledger), but the code faults on every symbol that has
data. -/
theorem gate_blocked_cycle_raises :
    (daily_risk_gate st0 cfg0 day0).1 = false ∧
    processSymbol ctx0 inp0 acc0 = Except.error
      (RunError.attributeError ("module utils.storage has no attribute append_ai_decision")) := by
  constructor
  · norm_num [daily_risk_gate, st0, cfg0, day0, getD, initialState]
  · norm_num [processSymbol, inp0]

/-! ## C9 — conservation of realized PnL -/

/-- The absolute PnL contributed by one trades-CSV row to the lifetime sum:
SELL rows carry their booked `pnl_usdt`, BUY rows carry none. -/
def sellPnl (t : TradeRecord) : ℚ :=
  if t.side = Side.SELL then t.pnl_usdt.getD 0 else 0

def sellPnlSum (ts : List TradeRecord) : ℚ := (ts.map sellPnl).sum

/-- The absolute PnL contributed by one row to day `d`'s sum. -/
def sellPnlDay (d : String) (t : TradeRecord) : ℚ :=
  if t.side = Side.SELL ∧ t.day = d then t.pnl_usdt.getD 0 else 0

def sellPnlSumDay (ts : List TradeRecord) (d : String) : ℚ := (ts.map (sellPnlDay d)).sum

/-- The bookkeeping invariant claimed for the ledger: the lifetime realized
PnL equals the sum of `pnl_usdt` over all SELL rows ever appended, and each
day's PnL bucket equals the sum over the SELL rows booked under that day. -/
def LedgerInv (acc : RunAcc) : Prop :=
  acc.state.realized_pnl_usdt = sellPnlSum acc.trades ∧
  ∀ d, getD acc.state.day_pnl_usdt d 0 = sellPnlSumDay acc.trades d

lemma sellPnlSum_append (ts : List TradeRecord) (r : TradeRecord) :
    sellPnlSum (ts ++ [r]) = sellPnlSum ts + sellPnl r := by
  simp [sellPnlSum]

lemma sellPnlSumDay_append (ts : List TradeRecord) (r : TradeRecord) (d : String) :
    sellPnlSumDay (ts ++ [r]) d = sellPnlSumDay ts d + sellPnlDay d r := by
  simp [sellPnlSumDay]

lemma ledgerInv_bookExit (reason day ts sym : String) (qty price avg : ℚ) (acc : RunAcc)
    (h : LedgerInv acc) : LedgerInv (bookExit reason day ts sym qty price avg acc) := by
  obtain ⟨h1, h2⟩ := h
  constructor
  · show acc.state.realized_pnl_usdt + qty * (price - avg) = sellPnlSum (acc.trades ++ _)
    rw [sellPnlSum_append, h1, sellPnl]
    simp
  · intro d
    show getD (bump acc.state.day_pnl_usdt day (qty * (price - avg))) d 0 =
      sellPnlSumDay (acc.trades ++ _) d
    rw [getD_bump, h2 d, sellPnlSumDay_append, sellPnlDay]
    by_cases hd : d = day
    · simp [hd]
    · simp [hd, Ne.symm hd]

lemma ledgerInv_entryPhase (ctx : EngineCtx) (inp : CycleInput) (posQty : ℚ) (acc : RunAcc)
    (h : LedgerInv acc) : LedgerInv (entryPhase ctx inp posQty acc) := by
  unfold entryPhase
  split_ifs <;> try exact ⟨h.1, h.2⟩
  all_goals
    refine ⟨?_, fun d => ?_⟩
    · show acc.state.realized_pnl_usdt = sellPnlSum (acc.trades ++ _)
      rw [sellPnlSum_append, h.1, sellPnl]
      simp
    · show getD acc.state.day_pnl_usdt d 0 = sellPnlSumDay (acc.trades ++ _) d
      rw [sellPnlSumDay_append, h.2 d, sellPnlDay]
      simp

lemma ledgerInv_exitPhase (ctx : EngineCtx) (inp : CycleInput) (pos : Position) (acc : RunAcc)
    (h : LedgerInv acc) : LedgerInv (exitPhase ctx inp pos acc) := by
  unfold exitPhase
  split_ifs <;>
    first
      | exact ⟨h.1, h.2⟩
      | exact ⟨(ledgerInv_bookExit _ _ _ _ _ _ _ acc h).1,
               (ledgerInv_bookExit _ _ _ _ _ _ _ acc h).2⟩

lemma ledgerInv_decisionPhase (ctx : EngineCtx) (inp : CycleInput) (acc : RunAcc)
    (h : LedgerInv acc) : LedgerInv (decisionPhase ctx inp acc) := by
  unfold decisionPhase
  split
  · exact ledgerInv_entryPhase _ _ _ _ (ledgerInv_exitPhase _ _ _ _ h)
  · exact ledgerInv_entryPhase _ _ _ _ h

lemma ledgerInv_foldCycles (ctx : EngineCtx) (cs : List CycleInput) (a : RunAcc)
    (ha : LedgerInv a) :
    LedgerInv (cs.foldl
      (fun a c => if c.bars_nonempty = true then decisionPhase ctx c a else a) a) := by
  induction cs generalizing a with
  | nil => exact ha
  | cons c t ih =>
    simp only [List.foldl_cons]
    apply ih
    by_cases hb : c.bars_nonempty = true
    · rw [if_pos hb]
      exact ledgerInv_decisionPhase _ _ _ ha
    · rw [if_neg hb]
      exact ha

lemma ledgerInv_execRun (r : RunSpec) (acc : RunAcc) (h : LedgerInv acc) :
    LedgerInv (execRun r acc) := by
  have hstart : LedgerInv
      { acc with state := runStart acc.state r.day, buys := 0, sells := 0 } := by
    unfold runStart
    split
    · exact ⟨h.1, h.2⟩
    · exact ⟨h.1, h.2⟩
  exact ledgerInv_foldCycles _ r.cycles _ hstart

/-- C9: starting from the initial account state, after any sequence of runs
(each processing any sequence of entries and exits through the decision
engine), the lifetime `realized_pnl_usdt` equals the sum of `pnl_usdt` over
all SELL rows ever appended to the trades CSV, and every day's
`day_pnl_usdt` bucket equals the sum of `pnl_usdt` over the SELL rows booked
under that day (BUY rows carry no PnL). -/
theorem conservation_of_realized_pnl (runs : List RunSpec) :
    (runs.foldl (fun a r => execRun r a) initialAcc).state.realized_pnl_usdt =
      sellPnlSum (runs.foldl (fun a r => execRun r a) initialAcc).trades ∧
    ∀ d, getD (runs.foldl (fun a r => execRun r a) initialAcc).state.day_pnl_usdt d 0 =
      sellPnlSumDay (runs.foldl (fun a r => execRun r a) initialAcc).trades d := by
  have key : ∀ (rs : List RunSpec) (a : RunAcc), LedgerInv a →
      LedgerInv (rs.foldl (fun a r => execRun r a) a) := by
    intro rs
    induction rs with
    | nil => exact fun a ha => ha
    | cons r t ih =>
      intro a ha
      simp only [List.foldl_cons]
      exact ih _ (ledgerInv_execRun r a ha)
  have h0 : LedgerInv initialAcc := by
    constructor
    · simp [initialAcc, initialState, sellPnlSum]
    · intro d
      simp [initialAcc, initialState, sellPnlSumDay, getD]
  exact key runs initialAcc h0
